import Mathlib

/-!
Verification of the rustics2d 2D collision-detection core against its
natural-language specification.

Modelling conventions (shallow embedding of the Rust source):
* `f64` values are modelled by `FP`: either NaN or a finite rational.
  Finite arithmetic is modelled exactly over `ℚ`; every concrete value
  appearing in the theorems below is a small dyadic rational on which
  IEEE double arithmetic is itself exact, except where noted.
  IEEE `sqrt` is modelled exactly on perfect squares and on negative
  arguments (where it yields NaN); other arguments do not occur below.
  Infinities never arise in the developments below (no division by zero).
* `i64` values are modelled as `Int` together with explicit two's-complement
  bit-pattern conversions (`% 2^64`) for the bitwise operations.
* Rust functions that can panic (out-of-bounds indexing, `Option::unwrap`,
  `usize` underflow) are modelled in the `Option` monad: `none` is a panic.
* `Result<T, ()>` is modelled by `Except Unit T`.
-/

set_option maxRecDepth 2000

deriving instance DecidableEq for Except

namespace Rustics

/-- Model of an `f64` value: NaN or an exact finite rational. -/
inductive FP where
  | nan : FP
  | fin : ℚ → FP
deriving DecidableEq, Repr

/-- IEEE addition on finite doubles, modelled exactly; NaN propagates. -/
def fadd : FP → FP → FP
  | .fin p, .fin q => .fin (p + q)
  | _, _ => .nan

/-- IEEE subtraction on finite doubles, modelled exactly; NaN propagates. -/
def fsub : FP → FP → FP
  | .fin p, .fin q => .fin (p - q)
  | _, _ => .nan

/-- IEEE multiplication on finite doubles, modelled exactly; NaN propagates. -/
def fmul : FP → FP → FP
  | .fin p, .fin q => .fin (p * q)
  | _, _ => .nan

/-- IEEE division; NaN propagates.  Division by zero (which would produce an
infinity) is mapped to NaN; it never occurs in the developments below. -/
def fdiv : FP → FP → FP
  | .fin p, .fin q => if q = 0 then .nan else .fin (p / q)
  | _, _ => .nan

/-- IEEE negation; NaN propagates (`-0` is conflated with `0`). -/
def fneg : FP → FP
  | .fin p => .fin (-p)
  | .nan => .nan

/-- IEEE absolute value; NaN propagates. -/
def fabs : FP → FP
  | .fin p => .fin |p|
  | .nan => .nan

/-- Newton iteration step for the integer square root (kernel-reducible
replacement for `Nat.sqrt`; the fuel 64 suffices for any input below 2⁶⁴,
far beyond every argument that occurs here). -/
def isqrtGo : ℕ → ℕ → ℕ → ℕ
  | 0, _, x => x
  | fuel + 1, n, x =>
      let y := (x + n / max x 1) / 2
      if y < x then isqrtGo fuel n y else x

/-- Integer (floor) square root by Newton iteration. -/
def isqrt (n : ℕ) : ℕ := isqrtGo 64 n n

/-- Exact rational square root, used to model IEEE `sqrt`: exact on
perfect squares (the only nonnegative arguments that occur below). -/
def ratSqrt (q : ℚ) : ℚ :=
  (isqrt q.num.toNat : ℚ) / (isqrt q.den : ℚ)

/-- IEEE `sqrt`: NaN on NaN and on negative arguments. -/
def fsqrt : FP → FP
  | .fin p => if p < 0 then .nan else .fin (ratSqrt p)
  | .nan => .nan

/-- IEEE `<` as a boolean: false whenever an operand is NaN. -/
def fltB : FP → FP → Bool
  | .fin p, .fin q => decide (p < q)
  | _, _ => false

/-- IEEE `<=` as a boolean: false whenever an operand is NaN. -/
def fleB : FP → FP → Bool
  | .fin p, .fin q => decide (p ≤ q)
  | _, _ => false

/-- IEEE `==` as a boolean: false whenever an operand is NaN
(in particular NaN is not equal to itself). -/
def feqB : FP → FP → Bool
  | .fin p, .fin q => decide (p = q)
  | _, _ => false

/-- IEEE `>` as a boolean: false whenever an operand is NaN. -/
def fgtB (a b : FP) : Bool := fltB b a

/-- The integer value `2¹⁰²⁴ - 2⁹⁷¹` of `f64::MAX`, written out in decimal
so that no large exponentiation has to be reduced. -/
def f64MaxNat : ℕ := 179769313486231570814527423731704356798070567525844996598917476803157260780028538760589558632766878171540458953514382464234321326889464182768467546703537516986049910576551282076245490090389328944075868508455133942304583236903222948165808559332123348274797826204144723168738177180919299881250404026184124858368

/-- `f64::MAX` is `(2 - 2⁻⁵²)·2¹⁰²³ = 2¹⁰²⁴ - 2⁹⁷¹`. -/
def F64MAX : FP := .fin ((f64MaxNat : ℚ))

/-- `f64::MIN = -f64::MAX`. -/
def F64MIN : FP := .fin (-(f64MaxNat : ℚ))

/-! ## src/util.rs -/

/-- `const THRESHOLD: f64 = 1e-10` (modelled by the exact decimal value). -/
def THRESHOLD : FP := .fin (1 / 10 ^ 10)

/-- `util::feq`: true if the floats are equal or within 1e-10 of each other.
Source: `let diff = (f1 - f2).abs(); diff >= 0f64 && diff < THRESHOLD`. -/
def feq (f1 f2 : FP) : Bool :=
  let diff := fabs (fsub f1 f2)
  fleB (.fin 0) diff && fltB diff THRESHOLD

/-- `i64::MIN`. -/
def i64Min : Int := -(2 ^ 63)

/-- Two's-complement bit pattern of an `i64` value. -/
def toPat (v : Int) : ℕ := (v % (2 ^ 64 : Int)).toNat

/-- `i64` value of a 64-bit two's-complement pattern. -/
def toVal (p : ℕ) : Int := if p < 2 ^ 63 then (p : Int) else (p : Int) - 2 ^ 64

/-- Bitwise xor of two `i64` values. -/
def i64Xor (a b : Int) : Int := toVal (Nat.xor (toPat a) (toPat b))

/-- Bitwise or of two `i64` values. -/
def i64Or (a b : Int) : Int := toVal (Nat.lor (toPat a) (toPat b))

/-- Arithmetic shift right of an in-range `i64` value: floor division. -/
def i64Shr (a : Int) (n : ℕ) : Int := Int.fdiv a (2 ^ n)

/-- Wrapping `i64` negation (release-mode Rust semantics). -/
def i64Neg (a : Int) : Int := toVal (toPat (-a))

/-- Truncation of a rational toward zero (the rounding of Rust's
float-to-integer `as` cast). -/
def ratTrunc (q : ℚ) : Int := Int.tdiv q.num q.den

/-- Rust's saturating `f64 as i64` cast: truncate toward zero, clamp to the
`i64` range, and map NaN to 0. -/
def f64AsI64 : FP → Int
  | .nan => 0
  | .fin q =>
      if ((2 ^ 63 : ℕ) : ℚ) ≤ q then 2 ^ 63 - 1
      else if q ≤ -((2 ^ 63 : ℕ) : ℚ) then -(2 ^ 63)
      else ratTrunc q

/-- The power of two dropped when rounding `n` to 53 significant bits:
the least `e` with `n < 2^(53+e)` (0 for `n < 2⁵³`). -/
def roundExp (n : ℕ) : ℕ :=
  ((List.range 64).find? (fun k => n < 2 ^ (53 + k))).getD 0

/-- Truncated 53-bit significand of `n`. -/
def roundHi (n : ℕ) : ℕ := n / 2 ^ roundExp n

/-- Significand after rounding to nearest, ties to even. -/
def roundHi2 (n : ℕ) : ℕ :=
  if 2 * (n % 2 ^ roundExp n) < 2 ^ roundExp n then roundHi n
  else if 2 ^ roundExp n < 2 * (n % 2 ^ roundExp n) then roundHi n + 1
  else if roundHi n % 2 = 0 then roundHi n else roundHi n + 1

/-- Round a natural number to 53 significant bits, ties to even
(the IEEE rounding applied by Rust's `i64 as f64` cast). -/
def roundNat53 (n : ℕ) : ℚ := ((roundHi2 n * 2 ^ roundExp n : ℕ) : ℚ)

/-- Rust's `i64 as f64` cast: exact below 2⁵³, round to nearest even above. -/
def i64ToF64 (v : Int) : FP :=
  if 0 ≤ v then .fin (roundNat53 v.toNat) else .fin (-roundNat53 (-v).toNat)

/-- `util::encode_f64`.  Source:
`let mask: i64 = -(input as i64 >> 31) | i64::MIN; (input as i64) ^ mask`. -/
def encode_f64 (input : FP) : Int :=
  let t : Int := f64AsI64 input
  let mask : Int := i64Or (i64Neg (i64Shr t 31)) i64Min
  i64Xor t mask

/-- `util::decode_f64`.  Source:
`let mask: i64 = ((input >> 31) - 1) | i64::MIN; (input ^ mask) as f64`. -/
def decode_f64 (input : Int) : FP :=
  let mask : Int := i64Or (i64Shr input 31 - 1) i64Min
  i64ToF64 (i64Xor input mask)

/-! ## Common vector / rotation / transform types (src/common) -/

/-- `common::Vec2d` (also the field layout of `src/vec2d.rs`). -/
structure Vec2d where
  x : FP
  y : FP
deriving DecidableEq, Repr

/-- `Vec2d::new`. -/
def Vec2d.new (x y : FP) : Vec2d := ⟨x, y⟩

/-- `Vec2d::zero`. -/
def Vec2d.zero : Vec2d := ⟨.fin 0, .fin 0⟩

/-- `Vec2d::dot`: `self.x * rhs.x + self.y * rhs.y`. -/
def Vec2d.dot (a b : Vec2d) : FP := fadd (fmul a.x b.x) (fmul a.y b.y)

/-- `Vec2d::len`.  Source (defect kept): `(self.x * self.x + self.y + self.y).sqrt()`
— the second summand is `self.y`, not `self.y * self.y`. -/
def Vec2d.len (v : Vec2d) : FP := fsqrt (fadd (fadd (fmul v.x v.x) v.y) v.y)

/-- `Vec2d::normalize`: `let inv_len = 1.0 / self.len(); (x*inv_len, y*inv_len)`. -/
def Vec2d.normalize (v : Vec2d) : Vec2d :=
  let inv_len := fdiv (.fin 1) v.len
  ⟨fmul v.x inv_len, fmul v.y inv_len⟩

/-- `Vec2d + Vec2d` (componentwise). -/
def Vec2d.add (a b : Vec2d) : Vec2d := ⟨fadd a.x b.x, fadd a.y b.y⟩

/-- `-Vec2d` (componentwise negation). -/
def Vec2d.neg (a : Vec2d) : Vec2d := ⟨fneg a.x, fneg a.y⟩

/-- `Vec2d - Vec2d`.  Source: `self + -rhs`. -/
def Vec2d.sub (a b : Vec2d) : Vec2d := a.add b.neg

/-- `common::Rotation`: cached sine and cosine of the rotation angle. -/
structure Rot2d where
  sin : FP
  cos : FP
deriving DecidableEq, Repr

/-- `Rotation::identity`: sin 0, cos 1. -/
def Rot2d.identity : Rot2d := ⟨.fin 0, .fin 1⟩

/-- `common::Transform`: a position and a rotation. -/
structure Transform2d where
  position : Vec2d
  rot : Rot2d
deriving DecidableEq, Repr

/-- `Transform::identity`. -/
def Transform2d.identity : Transform2d := ⟨Vec2d.zero, Rot2d.identity⟩

/-- `Vec2d::transform` (used by `shapes/convex.rs` but absent from
`src/common/vec2d.rs`).  Modelled from the spec: §4.5 step 1 — apply the
placement's rotation then its translation to the point; its body matches
`Vec2d::apply` in `src/common/vec2d.rs`:
`((cos*x - sin*y) + px, (sin*x + cos*y) + py)`. -/
def Vec2d.transform (v : Vec2d) (t : Transform2d) : Vec2d :=
  ⟨fadd (fsub (fmul t.rot.cos v.x) (fmul t.rot.sin v.y)) t.position.x,
   fadd (fadd (fmul t.rot.sin v.x) (fmul t.rot.cos v.y)) t.position.y⟩

/-- `Vec2d::rotate` (used by `shapes/convex.rs` but absent from
`src/common/vec2d.rs`).  Modelled from the spec: §4.5 step 1 — normals only
need rotation, not translation: `(cos*x - sin*y, sin*x + cos*y)`. -/
def Vec2d.rotate (v : Vec2d) (r : Rot2d) : Vec2d :=
  ⟨fsub (fmul r.cos v.x) (fmul r.sin v.y),
   fadd (fmul r.sin v.x) (fmul r.cos v.y)⟩

/-! ## src/collision/project.rs and src/collision/aabb.rs -/

/-- `Projection`: interval endpoints stored encoded as `i64`.
(`endp` models the Rust field `end`, a reserved word in Lean.) -/
structure Projection where
  start : Int
  endp : Int
deriving DecidableEq, Repr

/-- `Projection::new`: encodes both endpoints. -/
def Projection.new (start endv : FP) : Projection :=
  ⟨encode_f64 start, encode_f64 endv⟩

/-- `Projection::dec_start`: `util::decode_f64(self.start)`. -/
def Projection.dec_start (p : Projection) : FP := decode_f64 p.start

/-- `Projection::dec_end`.  Source (defect kept):
`util::decode_f64(self.start)` — it decodes the *start* field. -/
def Projection.dec_end (p : Projection) : FP := decode_f64 p.start

/-- `Projection::enc_start`. -/
def Projection.enc_start (p : Projection) : Int := p.start

/-- `Projection::enc_end`. -/
def Projection.enc_end (p : Projection) : Int := p.endp

/-- `Intersect for Projection`:
`(self.start >= rhs.start && self.start <= rhs.end) ||
 (rhs.start >= self.start && rhs.start <= self.end)`. -/
def Projection.intersect (s rhs : Projection) : Bool :=
  (decide (rhs.start ≤ s.start) && decide (s.start ≤ rhs.endp)) ||
  (decide (s.start ≤ rhs.start) && decide (rhs.start ≤ s.endp))

/-- `ProjectedBox2d`: projections of a box on both axes. -/
structure ProjectedBox2d where
  x : Projection
  y : Projection
deriving DecidableEq, Repr

/-- `Intersect for ProjectedBox2d`: both axis projections intersect. -/
def ProjectedBox2d.intersect (s rhs : ProjectedBox2d) : Bool :=
  s.x.intersect rhs.x && s.y.intersect rhs.y

/-- `Aabb`: center, half extents, and the cached encoded projections. -/
structure Aabb where
  center : Vec2d
  half_l : FP
  half_w : FP
  projected : ProjectedBox2d
deriving DecidableEq, Repr

/-- `bounds_info`: running min/max of the coordinates (seeded with
`f64::MAX`/`f64::MIN`), plus `half_x = (xmax - xmin) / 2` and
`half_y = (ymax - ymin) / 2`. -/
def bounds_info (points : List Vec2d) : FP × FP × FP × FP × FP × FP :=
  let st := points.foldl
    (fun (st : FP × FP × FP × FP) p =>
      let (xmin, xmax, ymin, ymax) := st
      let xmin := if fltB p.x xmin then p.x else xmin
      let xmax := if fltB xmax p.x then p.x else xmax
      let ymin := if fltB p.y ymin then p.y else ymin
      let ymax := if fltB ymax p.y then p.y else ymax
      (xmin, xmax, ymin, ymax))
    (F64MAX, F64MIN, F64MAX, F64MIN)
  let (xmin, xmax, ymin, ymax) := st
  (xmin, xmax, fdiv (fsub xmax xmin) (.fin 2), ymin, ymax,
   fdiv (fsub ymax ymin) (.fin 2))

/-- `Aabb::new`: error for fewer than 3 points, otherwise pack the
`bounds_info` data (defect kept: `center` is set to the half extents
`(half_x, half_y)`, not the midpoint). -/
def Aabb.new (points : List Vec2d) : Except Unit Aabb :=
  if points.length < 3 then .error ()
  else
    let (xmin, xmax, half_x, ymin, ymax, half_y) := bounds_info points
    .ok
      { center := ⟨half_x, half_y⟩
        half_l := fsub half_x xmin
        half_w := fsub half_y ymin
        projected :=
          ⟨Projection.new xmin xmax, Projection.new ymin ymax⟩ }

/-- `Aabb::translate`: move the center and rebuild the projections
(defect kept: the x interval uses `half_w` and the y interval `half_l`). -/
def Aabb.translate (a : Aabb) (movement : Vec2d) : Aabb :=
  let center := a.center.add movement
  { a with
    center := center
    projected :=
      ⟨Projection.new (fsub center.x a.half_w) (fadd center.x a.half_w),
       Projection.new (fsub center.y a.half_l) (fadd center.y a.half_l)⟩ }

/-- `Intersect for Aabb`: delegate to the cached projections. -/
def Aabb.intersect (s rhs : Aabb) : Bool := s.projected.intersect rhs.projected

/-- `PartialEq for Aabb`.  Source kept verbatim, including the two dead
guards comparing against the NaN literal and the `self.half_l` operand in
the second guard. -/
def Aabb.eqB (s rhs : Aabb) : Bool :=
  if feqB s.half_w .nan || feqB s.half_l .nan then false
  else if feqB rhs.half_w .nan || feqB s.half_l .nan then false
  else
    (feqB s.center.x rhs.center.x && feqB s.center.y rhs.center.y) &&
    feqB s.half_l rhs.half_l &&
    feqB s.half_w rhs.half_w &&
    decide (s.projected = rhs.projected)

/-! ## src/collision/shapes/convex.rs -/

/-- `VertexAngle`: the kind of turn three consecutive vertices make. -/
inductive VertexAngle where
  | collinear : VertexAngle
  | clockwise : VertexAngle
  | counterClockwise : VertexAngle
deriving DecidableEq, Repr

/-- `vertex_angle`: sign of the 2D cross product
`(p2 - p1) × (p3 - p1)`, with `feq`-tolerant collinearity. -/
def vertex_angle (p1 p2 p3 : Vec2d) : VertexAngle :=
  let x := fsub (fmul (fsub p2.x p1.x) (fsub p3.y p1.y))
                (fmul (fsub p2.y p1.y) (fsub p3.x p1.x))
  if feq x (.fin 0) then .collinear
  else if fltB x (.fin 0) then .clockwise
  else .counterClockwise

/-- `dist_sq`: squared distance of two vertices. -/
def dist_sq (p1 p2 : Vec2d) : FP :=
  fadd (fmul (fsub p1.x p2.x) (fsub p1.x p2.x))
       (fmul (fsub p1.y p2.y) (fsub p1.y p2.y))

/-- `lowest_y_index`: index of the vertex with the lowest y coordinate,
ties (within `feq`) broken by the leftmost x.  Callers guarantee a
non-empty slice (the source reads `vertices[0]` unguarded). -/
def lowest_y_index (vertices : List Vec2d) : ℕ :=
  match vertices with
  | [] => 0
  | v0 :: _ =>
    (vertices.foldl
      (fun (st : ℕ × ℕ × Vec2d) p =>
        let (i, j, lowest) := st
        if fltB p.y lowest.y || (feq p.y lowest.y && fltB p.x lowest.x)
        then (i + 1, i, p)
        else (i + 1, j, lowest))
      (0, 0, v0)).2.1

/-- `slice::swap` on two in-bounds indices (identity when out of bounds;
all uses below are in bounds). -/
def listSwap (l : List Vec2d) (i j : ℕ) : List Vec2d :=
  match l.get? i, l.get? j with
  | some a, some b => (l.set i b).set j a
  | _, _ => l

/-- Stable insertion into a list sorted by an `Ordering` comparator:
the new element goes after existing elements it does not strictly precede. -/
def insertOrd {α : Type} (cmp : α → α → Ordering) (a : α) : List α → List α
  | [] => [a]
  | b :: bs => if cmp a b = Ordering.lt then a :: b :: bs else b :: insertOrd cmp a bs

/-- Stable comparator sort, modelling `slice::sort_by` (on the inputs used
below the comparator is a total order, so every comparison sort agrees). -/
def sortByCmp {α : Type} (cmp : α → α → Ordering) (l : List α) : List α :=
  l.foldl (fun acc a => insertOrd cmp a acc) []

/-- The polar-angle comparator passed to `sort_by` by `graham_scan`:
collinear (about `sentinel`) compares by distance (`ds2 >= ds1` ⇒ `Less`),
clockwise is `Greater`, counter-clockwise is `Less`. -/
def cmpPolar (sentinel p1 p2 : Vec2d) : Ordering :=
  match vertex_angle sentinel p1 p2 with
  | .collinear =>
      if fleB (dist_sq sentinel p1) (dist_sq sentinel p2) then .lt else .gt
  | .clockwise => .gt
  | .counterClockwise => .lt

/-- One iteration of the Graham-scan stack loop, stack held top-first:
`let mut top = hull.pop().unwrap();
 while vertex_angle(hull[hull.len() - 1], top, clone[i]) != CounterClockwise
   { top = hull.pop().unwrap(); }
 hull.push(top); hull.push(clone[i]);`
`none` models the panic when the stack is exhausted. -/
def scanPop : List Vec2d → Vec2d → Vec2d → Option (List Vec2d)
  | [], _, _ => none
  | next :: rest, top, cand =>
      if vertex_angle next top cand ≠ VertexAngle.counterClockwise
      then scanPop rest next cand
      else some (cand :: top :: next :: rest)

/-- Process one candidate vertex: pop the top, then run the pop loop. -/
def scanStep (stack : List Vec2d) (cand : Vec2d) : Option (List Vec2d) :=
  match stack with
  | [] => none
  | top :: rest => scanPop rest top cand

/-- `graham_scan` of `src/collision/shapes/convex.rs`: `some (.error ())`
models `Err(())`, `none` models a panic. -/
def graham_scan (vertices : List Vec2d) : Option (Except Unit (List Vec2d)) :=
  let n := vertices.length
  if n < 3 then some (.error ())
  else
    let clone := listSwap vertices 0 (lowest_y_index vertices)
    match clone with
    | [] => none
    | sentinel :: _ =>
      let clone := sortByCmp (cmpPolar sentinel) clone
      match clone.findIdx? (fun x => decide (x ≠ sentinel)) with
      | none => some (.error ())
      | some first =>
        match clone.get? first with
        | none => none
        | some cfirst =>
          match clone.findIdx?
              (fun x => decide (vertex_angle sentinel cfirst x ≠ .collinear)) with
          | none => some (.error ())
          | some second =>
            match second with
            | 0 => none
            | secondPred + 1 =>
              match clone.get? secondPred with
              | none => none
              | some fpoint =>
                match (clone.drop (secondPred + 1)).foldlM scanStep
                    [fpoint, sentinel] with
                | none => none
                | some stack => some (.ok stack.reverse)

/-- `Convex`: hull vertices and the per-edge normals. -/
structure Convex where
  vertices : List Vec2d
  normals : List Vec2d
deriving DecidableEq, Repr

/-- `Convex::new`: run `graham_scan`, then for each hull edge
`hull[i] → hull[(i+1) % n]` compute
`Vec2d::new(1.0 * edge.y, -1.0 * edge.x).normalize()`.
The `getD` defaults are never used: both indices are in bounds. -/
def Convex.new (vertices : List Vec2d) : Option (Except Unit Convex) :=
  match graham_scan vertices with
  | none => none
  | some (.error _) => some (.error ())
  | some (.ok hull) =>
      let normals := (List.range hull.length).map (fun i =>
        let i2 := if i + 1 < hull.length then i + 1 else 0
        let edge := (hull.getD i2 Vec2d.zero).sub (hull.getD i Vec2d.zero)
        (Vec2d.new (fmul (.fin 1) edge.y) (fmul (.fin (-1)) edge.x)).normalize)
      some (.ok ⟨hull, normals⟩)

/-- `util::TOLERANCE` (referenced by `collides_with` but absent from
`src/util.rs`).  Modelled from the spec: §4.5 requires "a small fixed
epsilon, not exact-zero"; modelled as 1e-10, the magnitude of
`util::THRESHOLD`.  The theorems below hold for any value in `[0, 2)`. -/
def TOLERANCE : FP := .fin (1 / 10 ^ 10)

/-- `find_max_separation(a, b, at, bt)`: over `a`'s transformed edges,
the largest signed distance from `b`'s support point to the edge line
along the edge normal; `none` models an out-of-bounds panic. -/
def find_max_separation (a b : Convex) (ta tb : Transform2d) :
    Option (ℕ × FP) :=
  let va := a.vertices
  let na := a.normals
  let vb := b.vertices
  (List.range va.length).foldlM
    (fun (st : ℕ × FP) i => do
      let vai ← va.get? i
      let nai ← na.get? i
      let vertex_a := vai.transform ta
      let normal := nai.rotate ta.rot
      let neg_normal := normal.neg
      let v0 ← vb.get? 0
      let bs := vb.foldl
        (fun (bs : FP × Vec2d) vbj =>
          let vertex_b := vbj.transform tb
          let proj := neg_normal.dot vertex_b
          if fgtB proj bs.1 then (proj, vertex_b) else bs)
        (F64MIN, v0)
      let sep := normal.dot (bs.2.sub vertex_a)
      pure (if fgtB sep st.2 then (i, sep) else st))
    (0, F64MIN)

/-- `CollidesWith<Convex> for Convex`.  Source (defect kept): the second
call is `find_max_separation(other, self, this_t, other_t)` — the
transforms are *not* swapped along with the polygons. -/
def Convex.collides_with (s other : Convex) (this_t other_t : Transform2d) :
    Option Bool := do
  let ra ← find_max_separation s other this_t other_t
  if fgtB ra.2 TOLERANCE then pure false
  else do
    let rb ← find_max_separation other s this_t other_t
    if fgtB rb.2 TOLERANCE then pure false
    else pure true

/-! ## src/collision/broadphase.rs -/

/-- `SweepPoint`: one interval endpoint in an axis sweep sequence.
`projecter` is `None` exactly for the two sentinels. -/
structure SweepPoint (T : Type) where
  projecter : Option T
  is_start : Bool
  val : Int
deriving DecidableEq, Repr

/-- `SweepPoint::min_sentinel`: value `encode_f64(f64::MIN)`. -/
def SweepPoint.min_sentinel (T : Type) : SweepPoint T :=
  ⟨none, false, encode_f64 F64MIN⟩

/-- `SweepPoint::max_sentinel`: value `encode_f64(f64::MAX)`. -/
def SweepPoint.max_sentinel (T : Type) : SweepPoint T :=
  ⟨none, false, encode_f64 F64MAX⟩

/-- `SweepPoint::compare`: compare by encoded value. -/
def SweepPoint.cmp {T : Type} (a b : SweepPoint T) : Ordering :=
  compare a.val b.val

/-- `IdPair` equality: order-independent equality of the two references. -/
def idPairEq {T : Type} [DecidableEq T] (s rhs : T × T) : Bool :=
  (decide (s.1 = rhs.1) && decide (s.2 = rhs.2)) ||
  (decide (s.2 = rhs.1) && decide (s.1 = rhs.2))

/-- `HashSet::insert` under `IdPair` equality (sets have one entry per
equivalence class). -/
def pairsInsert {T : Type} [DecidableEq T] (l : List (T × T)) (p : T × T) :
    List (T × T) :=
  if l.any (fun q => idPairEq q p) then l else l ++ [p]

/-- `HashSet::remove` under `IdPair` equality. -/
def pairsRemove {T : Type} [DecidableEq T] (l : List (T × T)) (p : T × T) :
    List (T × T) :=
  l.filter (fun q => !idPairEq q p)

/-- `SweepAndPrune`: the two axis endpoint sequences and the pair set. -/
structure SweepAndPrune (T : Type) where
  xs : List (SweepPoint T)
  ys : List (SweepPoint T)
  pairs : List (T × T)
deriving DecidableEq, Repr

/-- `SweepAndPrune::new`: sentinel-only sequences, empty pair set. -/
def SweepAndPrune.new (T : Type) : SweepAndPrune T :=
  ⟨[SweepPoint.min_sentinel T, SweepPoint.max_sentinel T],
   [SweepPoint.min_sentinel T, SweepPoint.max_sentinel T], []⟩

/-- `Vec` index-assignment `v[i] = a`: panics (`none`) when `i` is out of
bounds.  `Vec::with_capacity` yields *length* 0, so the first such write in
`batch_insert` panics. -/
def vecSet {α : Type} (v : List α) (i : ℕ) (a : α) : Option (List α) :=
  if i < v.length then some (v.set i a) else none

/-- `Vec::insert(i, a)`: panics (`none`) when `i > len`. -/
def vecInsert {α : Type} (v : List α) (i : ℕ) (a : α) : Option (List α) :=
  if i ≤ v.length then some (v.insertIdx i a) else none

/-- The endpoint-building loop of `batch_insert`: for each projecter write
`xs[j], xs[j+1], ys[j], ys[j+1]` and advance `j` by 2.  Returns the final
`j` as well (its value `2n` is read later by the y-merge, a defect of the
source).  The target vectors start empty, so any non-empty input panics at
the first write. -/
def buildSweepPoints {T : Type} :
    List (T × ProjectedBox2d) → ℕ → List (SweepPoint T) → List (SweepPoint T) →
    Option (List (SweepPoint T) × List (SweepPoint T) × ℕ)
  | [], j, xs, ys => some (xs, ys, j)
  | (t, p) :: rest, j, xs, ys => do
      let xs ← vecSet xs j ⟨some t, true, p.x.enc_start⟩
      let xs ← vecSet xs (j + 1) ⟨some t, false, p.x.enc_end⟩
      let ys ← vecSet ys j ⟨some t, true, p.y.enc_start⟩
      let ys ← vecSet ys (j + 1) ⟨some t, false, p.y.enc_end⟩
      buildSweepPoints rest (j + 2) xs ys

/-- The x-axis shift loop:
`while self.xs[i].val > x.val { self.xs[i+1] = self.xs[i]; i = i - 1; }`.
`none` models an index panic or `usize` underflow. -/
def shiftLoopX {T : Type} (x : SweepPoint T) :
    List (SweepPoint T) → ℕ → Option (List (SweepPoint T) × ℕ)
  | cur, i =>
    match cur.get? i with
    | none => none
    | some ci =>
      if x.val < ci.val then
        match vecSet cur (i + 1) ci with
        | none => none
        | some cur2 =>
          match i with
          | 0 => none
          | i' + 1 => shiftLoopX x cur2 i'
      else some (cur, i)
termination_by _ i => i

/-- The x-axis merge loop of `batch_insert`:
`self.xs.insert(i, x); i = i - 1; while ...; self.xs[i + 1] = x;`
with `i` carried from one iteration to the next. -/
def mergeX {T : Type} :
    List (SweepPoint T) → List (SweepPoint T) → ℕ → Option (List (SweepPoint T))
  | [], cur, _ => some cur
  | x :: rest, cur, i => do
      let cur ← vecInsert cur i x
      match i with
      | 0 => none
      | i' + 1 => do
          let si ← shiftLoopX x cur i'
          let cur ← vecSet si.1 (si.2 + 1) x
          mergeX rest cur si.2

/-- The y-axis shift loop of `batch_insert`, with the pair bookkeeping.
Defects kept: both `unwrap`s run even for sentinels, the removal does not
re-verify x-overlap, and the shifted element is written to `ys[j + 1]`
where `j` is the stale counter left over from the build loop. -/
def shiftLoopY {T : Type} [DecidableEq T] (inter : T → T → Bool)
    (y : SweepPoint T) (j : ℕ) :
    List (SweepPoint T) → List (T × T) → ℕ →
    Option (List (SweepPoint T) × List (T × T) × ℕ)
  | cur, pairs, i =>
    match cur.get? i with
    | none => none
    | some sw =>
      if y.val < sw.val then
        match y.projecter, sw.projecter with
        | some bb1, some bb2 =>
          let pairs :=
            if y.is_start && !sw.is_start then
              (if inter bb1 bb2 then pairsInsert pairs (bb1, bb2) else pairs)
            else pairs
          let pairs :=
            if !y.is_start && sw.is_start then pairsRemove pairs (bb1, bb2)
            else pairs
          match vecSet cur (j + 1) sw with
          | none => none
          | some cur2 =>
            match i with
            | 0 => none
            | i' + 1 => shiftLoopY inter y j cur2 pairs i'
        | _, _ => none
      else some (cur, pairs, i)
termination_by _ _ i => i

/-- The y-axis merge loop of `batch_insert`. -/
def mergeY {T : Type} [DecidableEq T] (inter : T → T → Bool) (j : ℕ) :
    List (SweepPoint T) → List (SweepPoint T) → List (T × T) → ℕ →
    Option (List (SweepPoint T) × List (T × T))
  | [], cur, pairs, _ => some (cur, pairs)
  | y :: rest, cur, pairs, i => do
      let cur ← vecInsert cur i y
      match i with
      | 0 => none
      | i' + 1 => do
          let si ← shiftLoopY inter y j cur pairs i'
          let cur ← vecSet si.1 (si.2.2 + 1) y
          mergeY inter j rest cur si.2.1 si.2.2

/-- `SweepAndPrune::batch_insert`, generic over the tracked `Container`
type `T` with its `projections2d` (`proj`) and `intersect` (`inter`)
capabilities.  `none` models a panic. -/
def batch_insert {T : Type} [DecidableEq T] (proj : T → ProjectedBox2d)
    (inter : T → T → Bool) (sap : SweepAndPrune T) (projecters : List T) :
    Option (SweepAndPrune T) :=
  if projecters.length = 0 then some sap
  else do
    let projections := projecters.map proj
    let built ← buildSweepPoints (projecters.zip projections) 0 [] []
    let xsNew := sortByCmp SweepPoint.cmp built.1
    let ysNew := sortByCmp SweepPoint.cmp built.2.1
    let xsCur ← mergeX xsNew sap.xs (sap.xs.length - 1)
    let yr ← mergeY inter built.2.2 ysNew sap.ys sap.pairs (sap.ys.length - 1)
    pure ⟨xsCur, yr.1, yr.2⟩

/-- Modelled from the spec (§8, broadphase soundness): the brute-force
reference pair set — all index pairs `i < j` whose projected boxes
intersect on both axes. -/
def bruteForcePairs (boxes : List ProjectedBox2d) : List (ℕ × ℕ) :=
  (List.range boxes.length).flatMap (fun i =>
    (List.range boxes.length).filterMap (fun j =>
      if decide (i < j) &&
         (boxes.getD i ⟨⟨0, 0⟩, ⟨0, 0⟩⟩).intersect (boxes.getD j ⟨⟨0, 0⟩, ⟨0, 0⟩⟩)
      then some (i, j) else none))

/-! ## Concrete fixtures used by the claim theorems -/

/-- Triangle input for C7: `(0,0), (1,0), (2, 9e-11), (2, 1e-10)` — a
positive-area point set on which the Graham-scan stack pops itself empty. -/
def c7pts : List Vec2d :=
  [⟨.fin 0, .fin 0⟩, ⟨.fin 1, .fin 0⟩,
   ⟨.fin 2, .fin (9 / 10 ^ 11)⟩, ⟨.fin 2, .fin (1 / 10 ^ 10)⟩]

/-- Triangle input for C8: `(0,0), (1,0), (0.78, 1)`; chosen so every
`sqrt` argument reached is either negative or a perfect square. -/
def c8pts : List Vec2d :=
  [⟨.fin 0, .fin 0⟩, ⟨.fin 1, .fin 0⟩, ⟨.fin (39 / 50), .fin 1⟩]

/-- The `Convex` value `Convex::new(c8pts)` evaluates to. -/
def c8hull : Convex :=
  ⟨[⟨.fin 0, .fin 0⟩, ⟨.fin 1, .fin 0⟩, ⟨.fin (39 / 50), .fin 1⟩],
   [⟨.nan, .nan⟩, ⟨.fin (5 / 6), .fin (11 / 60)⟩,
    ⟨.fin (-(5 / 8)), .fin (39 / 80)⟩]⟩

/-- Unit square `[0,1]²` with its outward unit edge normals (C5). -/
def sqA : Convex :=
  ⟨[⟨.fin 0, .fin 0⟩, ⟨.fin 1, .fin 0⟩, ⟨.fin 1, .fin 1⟩, ⟨.fin 0, .fin 1⟩],
   [⟨.fin 0, .fin (-1)⟩, ⟨.fin 1, .fin 0⟩, ⟨.fin 0, .fin 1⟩, ⟨.fin (-1), .fin 0⟩]⟩

/-- Right triangle `(0,0), (4,3), (0,3)` with outward edge normals, the
hypotenuse normal kept unnormalized as `(3,-4)` so that all arithmetic is
dyadic-exact (C5). -/
def triB : Convex :=
  ⟨[⟨.fin 0, .fin 0⟩, ⟨.fin 4, .fin 3⟩, ⟨.fin 0, .fin 3⟩],
   [⟨.fin 3, .fin (-4)⟩, ⟨.fin 0, .fin 1⟩, ⟨.fin (-1), .fin 0⟩]⟩

/-- Placement of `triB` for C5: translation by `(1, -0.75)`, no rotation. -/
def btT : Transform2d := ⟨⟨.fin 1, .fin (-(3 / 4))⟩, Rot2d.identity⟩

/-- Input points for C6: x spans `[0,4]`, y spans `[0,2]`. -/
def c6pts : List Vec2d := [⟨.fin 0, .fin 0⟩, ⟨.fin 4, .fin 0⟩, ⟨.fin 0, .fin 2⟩]

/-- The box `Aabb::new(c6pts)` evaluates to (note the defective `center`,
which holds the half extents `(2,1)` instead of the midpoint). -/
def c6box : Aabb :=
  ⟨⟨.fin 2, .fin 1⟩, .fin 2, .fin 1,
   ⟨Projection.new (.fin 0) (.fin 4), Projection.new (.fin 0) (.fin 2)⟩⟩

/-- Scenario-3 boxes for C3: `A=[0,1]²`, `B=[2,3]²`, `C=[0.5,1.5]²`. -/
def boxA : ProjectedBox2d :=
  ⟨Projection.new (.fin 0) (.fin 1), Projection.new (.fin 0) (.fin 1)⟩

/-- Scenario-3 box `B=[2,3]²`. -/
def boxB : ProjectedBox2d :=
  ⟨Projection.new (.fin 2) (.fin 3), Projection.new (.fin 2) (.fin 3)⟩

/-- Scenario-3 box `C=[0.5,1.5]²`. -/
def boxC : ProjectedBox2d :=
  ⟨Projection.new (.fin (1 / 2)) (.fin (3 / 2)),
   Projection.new (.fin (1 / 2)) (.fin (3 / 2))⟩

/-- An `Aabb` holding a NaN coordinate, the witness input for C9. -/
def aabbNanBox : Aabb :=
  ⟨⟨.fin 0, .fin 0⟩, .nan, .fin 1,
   ⟨Projection.new (.fin 0) (.fin 1), Projection.new (.fin 0) (.fin 1)⟩⟩

/-- "Holds a NaN coordinate": NaN in `center`, `half_l` or `half_w`
(the `f64` fields of `Aabb`; `projected` is integral). -/
def Aabb.hasNaN (a : Aabb) : Prop :=
  a.center.x = .nan ∨ a.center.y = .nan ∨ a.half_l = .nan ∨ a.half_w = .nan

instance (a : Aabb) : Decidable a.hasNaN := by
  unfold Aabb.hasNaN
  infer_instance

/-! ## Helper lemmas -/

/-- Comparing any float to NaN with `==` is false (right operand). -/
theorem feqB_nan_right (x : FP) : feqB x .nan = false := by
  cases x <;> rfl

/-- Comparing any float to NaN with `==` is false (left operand). -/
theorem feqB_nan_left (x : FP) : feqB .nan x = false := by
  cases x <;> rfl

/-! ## Claim theorems -/

/-- Claim C1 (code_bug): the spec demands `a < b → encode_f64 a < encode_f64 b`
for finite values, and the source's own doc comment promises an
order-preserving bijection; but the truncating `as i64` cast (and the
`>> 31` shift on a 64-bit value) break it: `-1 < 0` yet
`encode_f64(-1) = 2⁶³ - 2 > encode_f64(0) = -2⁶³`. -/
theorem encode_f64_breaks_order :
    ((-1 : ℚ) < 0) ∧
    encode_f64 (.fin (-1)) = 2 ^ 63 - 2 ∧
    encode_f64 (.fin 0) = -(2 ^ 63) ∧
    ¬ encode_f64 (.fin (-1)) < encode_f64 (.fin 0) := by
  refine ⟨by norm_num, by decide, by decide, by decide⟩

/-- Claim C2 (code_bug): the spec and the source's doc comment demand
`decode_f64 (encode_f64 f) = f` for every finite `f`, but at `f = -1`
the truncating casts give `decode_f64 (encode_f64 (-1)) = -2³²`. -/
theorem decode_encode_not_round_trip :
    decode_f64 (encode_f64 (.fin (-1))) = .fin (-(2 ^ 32)) ∧
    decode_f64 (encode_f64 (.fin (-1))) ≠ .fin (-1) := by
  refine ⟨by decide, by decide⟩

/-- Claim C3 (code_bug): the pair set can never equal the brute-force
intersection set for a non-empty batch, because `batch_insert` panics
before producing one: it writes `xs[0]` into the length-0 vector produced
by `Vec::with_capacity`.  On the spec's Scenario-3 boxes the brute force
answer is `{(A, C)}`, but the call panics (`none`). -/
theorem batch_insert_panics_scenario3 :
    batch_insert id ProjectedBox2d.intersect
      (SweepAndPrune.new ProjectedBox2d) [boxA, boxB, boxC] = none ∧
    bruteForcePairs [boxA, boxB, boxC] = [(0, 2)] := by
  refine ⟨by decide, by with_unfolding_all decide⟩

/-- Claim C4 (code_bug): an empty batch is indeed a no-op, but every
non-empty batch panics on the first endpoint write (`xs[j]` with the local
vectors still at length 0), so `batch_insert` never "completes normally". -/
theorem batch_insert_totality_fails {T : Type} [DecidableEq T]
    (proj : T → ProjectedBox2d) (inter : T → T → Bool)
    (sap : SweepAndPrune T) (p : T) (ps : List T) :
    batch_insert proj inter sap (p :: ps) = none ∧
    batch_insert proj inter sap [] = some sap := by
  constructor
  · rfl
  · rfl

/-- Claim C5 (code_bug): SAT symmetry fails because the second call in
`collides_with` is `find_max_separation(other, self, this_t, other_t)` —
the transforms are not swapped along with the polygons.  With the unit
square at the identity and the triangle translated by `(1, -0.75)`, the
two call orders disagree. -/
theorem collides_with_asymmetric :
    Convex.collides_with sqA triB Transform2d.identity btT = some false ∧
    Convex.collides_with triB sqA btT Transform2d.identity = some true := by
  refine ⟨by with_unfolding_all decide, by with_unfolding_all decide⟩

/-- Claim C6 (code_bug): `translate` must shift both interval endpoints by
the delta, but `Aabb::new` stores the half extents as `center` and
`translate` rebuilds the x interval from `half_w` (the y half extent) and
the y interval from `half_l`: translating `c6box` (x span `[0,4]`, y span
`[0,2]`) by `(1,1)` yields x interval `[2,4]` and y interval `[0,4]`
instead of `[1,5]` and `[1,3]`. -/
theorem translate_distorts_box :
    Aabb.new c6pts = Except.ok c6box ∧
    (c6box.translate ⟨.fin 1, .fin 1⟩).projected =
      ⟨Projection.new (.fin 2) (.fin 4), Projection.new (.fin 0) (.fin 4)⟩ ∧
    (c6box.translate ⟨.fin 1, .fin 1⟩).projected ≠
      ⟨Projection.new (.fin 1) (.fin 5), Projection.new (.fin 1) (.fin 3)⟩ := by
  have hb : bounds_info c6pts = (.fin 0, .fin 4, .fin 2, .fin 0, .fin 2, .fin 1) := by
    with_unfolding_all decide
  have h20 : fsub (.fin 2) (.fin 0) = .fin 2 := by with_unfolding_all decide
  have h10 : fsub (.fin 1) (.fin 0) = .fin 1 := by with_unfolding_all decide
  have hadd : Vec2d.add ⟨.fin 2, .fin 1⟩ ⟨.fin 1, .fin 1⟩ = ⟨.fin 3, .fin 2⟩ := by
    with_unfolding_all decide
  have hs31 : fsub (.fin 3) (.fin 1) = .fin 2 := by with_unfolding_all decide
  have ha31 : fadd (.fin 3) (.fin 1) = .fin 4 := by with_unfolding_all decide
  have hs22 : fsub (.fin 2) (.fin 2) = .fin 0 := by with_unfolding_all decide
  have ha22 : fadd (.fin 2) (.fin 2) = .fin 4 := by with_unfolding_all decide
  refine ⟨?_, ?_, ?_⟩
  · unfold Aabb.new
    rw [hb]
    norm_num
    rw [h20, h10]
    rfl
  · unfold c6box Aabb.translate
    simp only [hadd]
    rw [hs31, ha31, hs22, ha22]
  · with_unfolding_all decide

/-- Claim C7 (code_bug): `c7pts` has a positive-area hull (its points are
not all collinear or coincident, under the exact or the tolerance reading),
so the claim requires `Convex::new` to return a hull; instead the scan loop
pops the hull stack empty and panics on the `hull[hull.len() - 1]` access. -/
theorem convex_new_panics_near_collinear : Convex.new c7pts = none := by
  with_unfolding_all decide

/-- Claim C8 (code_bug): the first edge of `c8hull` is `(1,0)`, whose
pre-normal is `(0,-1)`; `Vec2d::len` computes `sqrt(x*x + y + y) = sqrt(-2)
= NaN`, so `normals[0] = (NaN, NaN)` — not a unit vector (its squared norm
is NaN, not 1), contradicting the claimed outward unit normal `(0,-1)`. -/
theorem convex_normals_not_unit :
    Convex.new c8pts = some (.ok c8hull) ∧
    c8hull.normals.getD 0 Vec2d.zero = ⟨.nan, .nan⟩ ∧
    Vec2d.dot (c8hull.normals.getD 0 Vec2d.zero)
      (c8hull.normals.getD 0 Vec2d.zero) ≠ .fin 1 := by
  refine ⟨by with_unfolding_all decide, by with_unfolding_all decide, by with_unfolding_all decide⟩

/-- Claim C9 (confirmed): any `Aabb` holding a NaN coordinate compares
unequal under `==` to every `Aabb` (on either side), itself included: the
NaN-literal guards are dead, but the componentwise fallback comparisons are
IEEE equalities, and NaN is unequal to everything. -/
theorem aabb_nan_always_unequal (a b : Aabb) (h : a.hasNaN) :
    a.eqB b = false ∧ b.eqB a = false := by
  unfold Aabb.eqB
  simp only [feqB_nan_right, Bool.or_self, Bool.false_eq_true, if_false]
  rcases h with h | h | h | h <;>
    simp [h, feqB_nan_left, feqB_nan_right]

/-- Witness for C9 at a concrete NaN-holding box. -/
theorem aabb_nan_always_unequal_witness :
    aabbNanBox.hasNaN ∧
    (aabbNanBox.eqB aabbNanBox = false ∧ aabbNanBox.eqB aabbNanBox = false) :=
  ⟨by decide, aabb_nan_always_unequal aabbNanBox aabbNanBox (by decide)⟩

/-- Claim C10 (code_bug): `dec_end` must return the decoded *end*
endpoint, but the source decodes `self.start`; on `Projection::new(-1, 0)`
it returns `decode(encode(-1)) = -2³²` instead of
`decode(encode(0)) = 2⁶³ - 2³²`. -/
theorem dec_end_returns_start :
    Projection.dec_end (Projection.new (.fin (-1)) (.fin 0)) =
      decode_f64 (encode_f64 (.fin (-1))) ∧
    decode_f64 (encode_f64 (.fin (-1))) ≠ decode_f64 (encode_f64 (.fin 0)) := by
  refine ⟨by decide, by decide⟩

end Rustics
